import Mathlib

/-!
Shallow embedding of the XRPL sample-code repository's batch-status logic.

The embedded source files are:
* `src/lib/getBatchTxStatus.ts` — the batch inner-transaction status resolver;
* `src/lib/validateTransaction.ts` — `validateTransactionResult`;
* `src/xrpl/Batch/batchAllOrNothing.ts` — the all-or-nothing batch script
  (its control flow: connect/disconnect discipline, the hash-collection loop
  over `tx_json.RawTransactions`, and the call to `getBatchTxStatus`).

Modelling conventions:
* The `meta` field of an XRPL `tx` response has TypeScript type
  `TransactionMetadata | string | undefined`; it is embedded as `TxMeta`,
  where an object is represented by whether it carries a
  `TransactionResult` field and, if so, that field's string value
  (the only part of the object either source function reads).
* `await client.request({command: 'tx', transaction: h})` either throws or
  resolves with a response whose `meta` the code inspects; the ledger seen
  through that call is embedded as a function `Ledger` from transaction hash
  to `LookupOutcome`.  The `tx` command is a pure read, so an unchanged
  ledger is one and the same function.
* Concurrency: `Promise.all` over `Array.map` dispatches one independent
  lookup per element and aggregates the settled values in input order, so
  its embedding is `List.map` of the per-element handler; completion timing
  has no representation because it cannot affect the aggregated value.
* `console.log`/`console.error` calls and the explorer-URL logger are pure
  output and are not modelled.
-/

/-- The `meta` field of a `tx` response (`TransactionMetadata | string |
undefined`): absent, a binary string, or a metadata object that may or may
not contain a `TransactionResult` field (whose value is a string). -/
inductive TxMeta where
  | absent : TxMeta
  | binary (s : String) : TxMeta
  | obj (transactionResult : Option String) : TxMeta
  deriving DecidableEq

/-- An element of the `innerTxHashes` argument of `getBatchTxStatus`:
`{ hash: string; index: number }`. -/
structure TxDescriptor where
  hash : String
  index : Int
  deriving DecidableEq

/-- The `InnerTxStatus` interface of `src/lib/getBatchTxStatus.ts`:
`{ hash: string; successful: boolean; status: string; index: number }`. -/
structure InnerTxStatus where
  hash : String
  successful : Bool
  status : String
  index : Int
  deriving DecidableEq

/-- A request issued through `client.request`: the resolver only ever builds
`{ command: 'tx', transaction: tx.hash }`. -/
structure TxRequest where
  command : String
  transaction : String
  deriving DecidableEq

/-- Outcome of awaiting one `client.request({command: 'tx', ...})` call:
the promise rejects (the `catch` branch) or resolves with a response whose
`meta` field is the given `TxMeta`. -/
inductive LookupOutcome where
  | throws : LookupOutcome
  | responds (meta : TxMeta) : LookupOutcome
  deriving DecidableEq

/-- The ledger as seen through the read-only `tx` command: what one lookup
of each transaction hash yields.  Calling the resolver twice against an
unchanged ledger means calling it twice with the same `Ledger` function. -/
abbrev Ledger : Type := String → LookupOutcome

/-- One iteration of the `innerTxHashes.map(async (tx) => ...)` callback in
`getBatchTxStatus` (`src/lib/getBatchTxStatus.ts`, lines 22-58): request the
transaction by hash; if the response's `meta` is a truthy object containing
a `TransactionResult` field, report `successful = (TransactionResult ===
'tesSUCCESS')` and `status = TransactionResult`; otherwise report
`successful = false, status = 'unknown'`; if the lookup throws, the `catch`
branch reports `successful = false, status = 'not validated'`. -/
def getBatchTxStatusEntry (ledger : Ledger) (tx : TxDescriptor) : InnerTxStatus :=
  match ledger tx.hash with
  | LookupOutcome.responds m =>
    match m with
    | TxMeta.obj (some transactionResult) =>
      { hash := tx.hash
        index := tx.index
        successful := transactionResult == "tesSUCCESS"
        status := transactionResult }
    | _ =>
      { hash := tx.hash
        index := tx.index
        successful := false
        status := "unknown" }
  | LookupOutcome.throws =>
    { hash := tx.hash
      index := tx.index
      successful := false
      status := "not validated" }

/-- `getBatchTxStatus` (`src/lib/getBatchTxStatus.ts`): `await Promise.all(
innerTxHashes.map(...))` — one independent lookup per input pair, results
aggregated in input order. -/
def getBatchTxStatus (ledger : Ledger) (innerTxHashes : List TxDescriptor) :
    List InnerTxStatus :=
  innerTxHashes.map (getBatchTxStatusEntry ledger)

/-- The network requests issued by `getBatchTxStatus`: each iteration of the
mapped callback issues exactly the one request
`{ command: 'tx', transaction: tx.hash }` (lines 25-27) and nothing else. -/
def getBatchTxStatusRequests (innerTxHashes : List TxDescriptor) : List TxRequest :=
  innerTxHashes.map (fun tx => { command := "tx", transaction := tx.hash })

/-- The part of an xrpl `TxResponse` read by this repository:
`result.result.meta` and `result.result.hash`. -/
structure TxResponse where
  meta : TxMeta
  hash : String
  deriving DecidableEq

/-- `validateTransactionResult` (`src/lib/validateTransaction.ts`): extract
`TransactionResult` when `typeof meta === 'object' && 'TransactionResult' in
meta`, else use `'unknown'`; throw `Error('Transaction failed: ' + code)`
unless the code is `'tesSUCCESS'`.  A thrown error is embedded as
`Except.error` carrying the error message. -/
def validateTransactionResult (result : TxResponse) : Except String Unit :=
  let txResult :=
    match result.meta with
    | TxMeta.obj (some transactionResult) => transactionResult
    | _ => "unknown"
  if txResult ≠ "tesSUCCESS" then
    Except.error ("Transaction failed: " ++ txResult)
  else
    Except.ok ()

/-- One element of the ledger-recorded `tx_json.RawTransactions` array in
`batchAllOrNothing.ts`: a wrapper whose `RawTransaction` field may be
absent (the loop guards with `if (innerTx)`).  `Tx` is the type of the raw
transaction objects; the script never inspects them beyond passing them to
`hashes.hashSignedTx`. -/
structure RawTxEntry (Tx : Type) where
  rawTransaction : Option Tx

/-- The hash-collection loop of `batchAllOrNothing.ts` (lines 146-160) with
loop counter starting at `i`: for each entry, if `RawTransaction` is present
and `hashes.hashSignedTx` does not throw (a throw is embedded as `none`),
push `{ hash: txHash, index: i + 1 }`; otherwise skip the entry and
continue. -/
def collectInnerTxHashesFrom {Tx : Type} (hashSignedTx : Tx → Option String) :
    Nat → List (RawTxEntry Tx) → List TxDescriptor
  | _, [] => []
  | i, entry :: rest =>
    match entry.rawTransaction with
    | none => collectInnerTxHashesFrom hashSignedTx (i + 1) rest
    | some innerTx =>
      match hashSignedTx innerTx with
      | none => collectInnerTxHashesFrom hashSignedTx (i + 1) rest
      | some txHash =>
        { hash := txHash, index := (i : Int) + 1 } ::
          collectInnerTxHashesFrom hashSignedTx (i + 1) rest

/-- The hash-collection loop of `batchAllOrNothing.ts` run from `i = 0`:
builds the `innerTxHashes` array from the ledger-recorded
`RawTransactions`. -/
def collectInnerTxHashes {Tx : Type} (hashSignedTx : Tx → Option String)
    (rawTransactions : List (RawTxEntry Tx)) : List TxDescriptor :=
  collectInnerTxHashesFrom hashSignedTx 0 rawTransactions

/-- Observable client-lifecycle events of a `batchAllOrNothing` run:
construction of the one `Client`, the `client.connect()` call, the
`getBatchTxStatus` call with its argument list, and `client.disconnect()`. -/
inductive ClientEvent where
  | newClient : ClientEvent
  | connect : ClientEvent
  | statusLookup (txs : List TxDescriptor) : ClientEvent
  | disconnect : ClientEvent
  deriving DecidableEq

/-- Environment of one `batchAllOrNothing` run: the outcome of each awaited
or fallible external call, in program order.  `Tx` is the type of raw inner
transactions recorded on the ledger.  `batchTxLookup` is the follow-up
`client.request({command:'tx', transaction: result.result.hash})` combined
with the `txJson?.RawTransactions` extraction: `Except.error` if the request
throws, `Except.ok none` if `RawTransactions` is missing or not an array,
`Except.ok (some raws)` otherwise. -/
structure BatchRunEnv (Tx : Type) where
  walletFromSeedIssuer : Except String Unit
  walletFromSeedUser : Except String Unit
  connectOutcome : Except String Unit
  autofillOutcome : Except String Unit
  signOutcome : Except String Unit
  submitOutcome : Except String TxResponse
  batchTxLookup : Except String (Option (List (RawTxEntry Tx)))
  hashSignedTx : Tx → Option String
  ledger : Ledger

/-- The `try` block of `batchAllOrNothing` (`batchAllOrNothing.ts`, lines
45-213): wallet construction, `connect`, building and autofilling the batch,
signing, `submitAndWait`, `validateTransactionResult`, the follow-up `tx`
request for `RawTransactions`, the hash-collection loop, the
`getBatchTxStatus` call, and the final all-successful verdict
(`failedTxs.length === 0`).  Returns the client-lifecycle events emitted
before the block finished, and the block's outcome (`Except.error` = a
throw escaping to the `catch` clause). -/
def batchAllOrNothingTry {Tx : Type} (env : BatchRunEnv Tx) :
    List ClientEvent × Except String Bool :=
  match env.walletFromSeedIssuer with
  | Except.error e => ([], Except.error e)
  | Except.ok _ =>
  match env.walletFromSeedUser with
  | Except.error e => ([], Except.error e)
  | Except.ok _ =>
  match env.connectOutcome with
  | Except.error e => ([ClientEvent.connect], Except.error e)
  | Except.ok _ =>
  match env.autofillOutcome with
  | Except.error e => ([ClientEvent.connect], Except.error e)
  | Except.ok _ =>
  match env.signOutcome with
  | Except.error e => ([ClientEvent.connect], Except.error e)
  | Except.ok _ =>
  match env.submitOutcome with
  | Except.error e => ([ClientEvent.connect], Except.error e)
  | Except.ok result =>
  match validateTransactionResult result with
  | Except.error e => ([ClientEvent.connect], Except.error e)
  | Except.ok _ =>
  match env.batchTxLookup with
  | Except.error e => ([ClientEvent.connect], Except.error e)
  | Except.ok none => ([ClientEvent.connect], Except.ok false)
  | Except.ok (some rawTransactions) =>
    let innerTxHashes := collectInnerTxHashes env.hashSignedTx rawTransactions
    if innerTxHashes.length = 0 then
      ([ClientEvent.connect], Except.ok false)
    else
      let innerTxStatuses := getBatchTxStatus env.ledger innerTxHashes
      let failedTxs := innerTxStatuses.filter (fun tx => !tx.successful)
      ([ClientEvent.connect, ClientEvent.statusLookup innerTxHashes],
        Except.ok (failedTxs.length == 0))

/-- `batchAllOrNothing` (`batchAllOrNothing.ts`): `new Client(network.ws)`
(the network table lookup and client construction are total), then the `try`
block; the `catch` clause swallows any thrown error and returns `false`; the
`finally` clause runs `client.disconnect()` on every path.  Returns the
emitted client-lifecycle events and the boolean result. -/
def batchAllOrNothing {Tx : Type} (env : BatchRunEnv Tx) :
    List ClientEvent × Bool :=
  let run := batchAllOrNothingTry env
  ((ClientEvent.newClient :: run.1) ++ [ClientEvent.disconnect],
    match run.2 with
    | Except.ok b => b
    | Except.error _ => false)

/-- A sample ledger used by the concrete witnesses: hash `"AAA"` validated
successfully, `"BBB"` validated with a failure code, a lookup of `"CCC"`
throws, and any other hash resolves with absent metadata. -/
def sampleLedger : Ledger := fun h =>
  if h = "AAA" then LookupOutcome.responds (TxMeta.obj (some "tesSUCCESS"))
  else if h = "BBB" then LookupOutcome.responds (TxMeta.obj (some "tecUNFUNDED_PAYMENT"))
  else if h = "CCC" then LookupOutcome.throws
  else LookupOutcome.responds TxMeta.absent

/-- A second sample ledger that agrees with `sampleLedger` on `"AAA"`,
`"BBB"` and `"CCC"` but differs elsewhere. -/
def sampleLedgerTwo : Ledger := fun h =>
  if h = "AAA" then LookupOutcome.responds (TxMeta.obj (some "tesSUCCESS"))
  else if h = "BBB" then LookupOutcome.responds (TxMeta.obj (some "tecUNFUNDED_PAYMENT"))
  else if h = "CCC" then LookupOutcome.throws
  else LookupOutcome.responds (TxMeta.obj (some "tecPATH_DRY"))

/-- A sample input list for the concrete witnesses. -/
def sampleTxs : List TxDescriptor :=
  [{ hash := "AAA", index := 1 }, { hash := "CCC", index := 2 },
    { hash := "BBB", index := 3 }]

/-- A sample environment for a `batchAllOrNothing` run in which every
external call succeeds, the ledger records one raw inner transaction, and
its recomputed hash is `"AAA"`. -/
def sampleBatchEnv : BatchRunEnv Unit :=
  { walletFromSeedIssuer := Except.ok ()
    walletFromSeedUser := Except.ok ()
    connectOutcome := Except.ok ()
    autofillOutcome := Except.ok ()
    signOutcome := Except.ok ()
    submitOutcome := Except.ok { meta := TxMeta.obj (some "tesSUCCESS"), hash := "BATCH" }
    batchTxLookup := Except.ok (some [{ rawTransaction := some () }])
    hashSignedTx := fun _ => some "AAA"
    ledger := sampleLedger }

/-! Helper lemmas about the per-pair handler of `getBatchTxStatus`. -/

theorem getBatchTxStatusEntry_throws (ledger : Ledger) (tx : TxDescriptor)
    (h : ledger tx.hash = LookupOutcome.throws) :
    getBatchTxStatusEntry ledger tx =
      { hash := tx.hash, successful := false, status := "not validated",
        index := tx.index } := by
  unfold getBatchTxStatusEntry
  rw [h]

theorem getBatchTxStatusEntry_result (ledger : Ledger) (tx : TxDescriptor)
    (code : String)
    (h : ledger tx.hash = LookupOutcome.responds (TxMeta.obj (some code))) :
    getBatchTxStatusEntry ledger tx =
      { hash := tx.hash, successful := code == "tesSUCCESS", status := code,
        index := tx.index } := by
  unfold getBatchTxStatusEntry
  rw [h]

theorem getBatchTxStatusEntry_noResult (ledger : Ledger) (tx : TxDescriptor)
    (m : TxMeta) (h : ledger tx.hash = LookupOutcome.responds m)
    (hno : ∀ code : String, m ≠ TxMeta.obj (some code)) :
    getBatchTxStatusEntry ledger tx =
      { hash := tx.hash, successful := false, status := "unknown",
        index := tx.index } := by
  unfold getBatchTxStatusEntry
  rw [h]
  cases m with
  | absent => rfl
  | binary s => rfl
  | obj o =>
    cases o with
    | none => rfl
    | some code => exact absurd rfl (hno code)

theorem getBatchTxStatusEntry_index (ledger : Ledger) (tx : TxDescriptor) :
    (getBatchTxStatusEntry ledger tx).index = tx.index := by
  unfold getBatchTxStatusEntry
  cases ledger tx.hash with
  | throws => rfl
  | responds m =>
    cases m with
    | absent => rfl
    | binary s => rfl
    | obj o =>
      cases o with
      | none => rfl
      | some code => rfl

theorem getBatchTxStatusEntry_hashEq (ledger : Ledger) (tx : TxDescriptor) :
    (getBatchTxStatusEntry ledger tx).hash = tx.hash := by
  unfold getBatchTxStatusEntry
  cases ledger tx.hash with
  | throws => rfl
  | responds m =>
    cases m with
    | absent => rfl
    | binary s => rfl
    | obj o =>
      cases o with
      | none => rfl
      | some code => rfl

theorem getBatchTxStatusEntry_congr (ledger1 ledger2 : Ledger) (tx : TxDescriptor)
    (h : ledger1 tx.hash = ledger2 tx.hash) :
    getBatchTxStatusEntry ledger1 tx = getBatchTxStatusEntry ledger2 tx := by
  unfold getBatchTxStatusEntry
  rw [h]

theorem getBatchTxStatus_getElemEq (ledger : Ledger) (txs : List TxDescriptor)
    (i : Nat) (hi : i < txs.length) :
    (getBatchTxStatus ledger txs)[i]? = some (getBatchTxStatusEntry ledger txs[i]) := by
  simp [getBatchTxStatus, List.getElem?_map, List.getElem?_eq_getElem hi]

theorem getBatchTxStatusEntry_classification (ledger : Ledger) (tx : TxDescriptor)
    (m : TxMeta) (hm : ledger tx.hash = LookupOutcome.responds m) :
    ((getBatchTxStatusEntry ledger tx).successful = true ↔
      m = TxMeta.obj (some "tesSUCCESS")) ∧
    ∀ code : String, m = TxMeta.obj (some code) →
      (getBatchTxStatusEntry ledger tx).status = code ∧
        (code ≠ "tesSUCCESS" → (getBatchTxStatusEntry ledger tx).successful = false) := by
  unfold getBatchTxStatusEntry
  rw [hm]
  cases m with
  | absent => simp
  | binary s => simp
  | obj o =>
    cases o with
    | none => simp
    | some code => simp [beq_iff_eq]

/-- C1: for every input pair whose ledger lookup returns a response, the
resulting entry has `successful = true` iff the response's metadata is an
object containing a `TransactionResult` field equal to `'tesSUCCESS'`; when
the field is present the entry's `status` equals that `TransactionResult`
string, so any code other than `'tesSUCCESS'` yields `successful = false`
with `status` equal to that code. -/
theorem getBatchTxStatus_success_classification (ledger : Ledger)
    (txs : List TxDescriptor) (i : Nat) (hi : i < txs.length) (m : TxMeta)
    (hm : ledger (txs[i]).hash = LookupOutcome.responds m) :
    ∃ entry : InnerTxStatus,
      (getBatchTxStatus ledger txs)[i]? = some entry ∧
      (entry.successful = true ↔ m = TxMeta.obj (some "tesSUCCESS")) ∧
      ∀ code : String, m = TxMeta.obj (some code) →
        entry.status = code ∧ (code ≠ "tesSUCCESS" → entry.successful = false) :=
  ⟨getBatchTxStatusEntry ledger txs[i], getBatchTxStatus_getElemEq ledger txs i hi,
    getBatchTxStatusEntry_classification ledger txs[i] m hm⟩

/-- Witness for C1: in the sample ledger, hash `"AAA"` (position 0 of the
sample input) resolves with `TransactionResult = 'tesSUCCESS'`. -/
theorem getBatchTxStatus_success_classification_witness :
    ∃ entry : InnerTxStatus,
      (getBatchTxStatus sampleLedger sampleTxs)[0]? = some entry ∧
      (entry.successful = true ↔
        TxMeta.obj (some "tesSUCCESS") = TxMeta.obj (some "tesSUCCESS")) ∧
      ∀ code : String, TxMeta.obj (some "tesSUCCESS") = TxMeta.obj (some code) →
        entry.status = code ∧ (code ≠ "tesSUCCESS" → entry.successful = false) :=
  getBatchTxStatus_success_classification sampleLedger sampleTxs 0 (by decide)
    (TxMeta.obj (some "tesSUCCESS")) (by decide)

/-- C2: for every input list of N pairs and every behaviour of the per-hash
lookups, `getBatchTxStatus` returns exactly N records (there is no aggregate
failure path: the function is total by construction), and position i of the
output carries the index and hash of position i of the input; completion
timing has no representation because `Promise.all` aggregates in input
order. -/
theorem getBatchTxStatus_order_preservation (ledger : Ledger)
    (txs : List TxDescriptor) :
    (getBatchTxStatus ledger txs).length = txs.length ∧
    ∀ i : Nat,
      ((getBatchTxStatus ledger txs)[i]?).map InnerTxStatus.index =
        (txs[i]?).map TxDescriptor.index ∧
      ((getBatchTxStatus ledger txs)[i]?).map InnerTxStatus.hash =
        (txs[i]?).map TxDescriptor.hash := by
  refine ⟨by simp [getBatchTxStatus], fun i => ⟨?_, ?_⟩⟩
  · simp only [getBatchTxStatus, List.getElem?_map, Option.map_map]
    cases txs[i]? with
    | none => rfl
    | some tx => simp [Function.comp, getBatchTxStatusEntry_index]
  · simp only [getBatchTxStatus, List.getElem?_map, Option.map_map]
    cases txs[i]? with
    | none => rfl
    | some tx => simp [Function.comp, getBatchTxStatusEntry_hashEq]

/-- C3: if the lookup of the pair at position j throws, that pair's entry is
`{successful: false, status: "not validated"}` (with its own hash and
index); every entry is exactly the value determined by its own pair's ledger
response, and is unchanged under any modification of the ledger away from
its own hash — so no exception escapes and the other lookups are
unaffected. -/
theorem getBatchTxStatus_failure_isolation (ledger : Ledger)
    (txs : List TxDescriptor) (j : Nat) (hj : j < txs.length)
    (hthrow : ledger (txs[j]).hash = LookupOutcome.throws) :
    ((getBatchTxStatus ledger txs)[j]? =
      some { hash := (txs[j]).hash, successful := false,
             status := "not validated", index := (txs[j]).index }) ∧
    ∀ (i : Nat) (hi : i < txs.length),
      (getBatchTxStatus ledger txs)[i]? =
        some (getBatchTxStatusEntry ledger txs[i]) ∧
      ∀ ledger2 : Ledger, ledger2 (txs[i]).hash = ledger (txs[i]).hash →
        (getBatchTxStatus ledger2 txs)[i]? = (getBatchTxStatus ledger txs)[i]? := by
  refine ⟨?_, fun i hi => ⟨getBatchTxStatus_getElemEq ledger txs i hi, ?_⟩⟩
  · rw [getBatchTxStatus_getElemEq ledger txs j hj,
      getBatchTxStatusEntry_throws ledger txs[j] hthrow]
  · intro ledger2 h2
    rw [getBatchTxStatus_getElemEq ledger txs i hi,
      getBatchTxStatus_getElemEq ledger2 txs i hi,
      getBatchTxStatusEntry_congr ledger2 ledger txs[i] h2]

/-- Witness for C3: in the sample ledger the lookup of `"CCC"` (position 1
of the sample input) throws, and that entry is mapped to
`{successful: false, status: "not validated"}`. -/
theorem getBatchTxStatus_failure_isolation_witness :
    (getBatchTxStatus sampleLedger sampleTxs)[1]? =
      some { hash := "CCC", successful := false, status := "not validated",
             index := 2 } := by
  have h := getBatchTxStatus_failure_isolation sampleLedger sampleTxs 1
    (by decide) (by decide)
  exact h.1

/-- C4: a pair whose lookup responds with metadata that is absent, not an
object, or lacks a `TransactionResult` field yields the entry
`{successful: false, status: "unknown"}` with the original hash and
index. -/
theorem getBatchTxStatus_missing_metadata_unknown (ledger : Ledger)
    (txs : List TxDescriptor) (i : Nat) (hi : i < txs.length) (m : TxMeta)
    (hm : ledger (txs[i]).hash = LookupOutcome.responds m)
    (hno : ∀ code : String, m ≠ TxMeta.obj (some code)) :
    (getBatchTxStatus ledger txs)[i]? =
      some { hash := (txs[i]).hash, successful := false, status := "unknown",
             index := (txs[i]).index } := by
  rw [getBatchTxStatus_getElemEq ledger txs i hi,
    getBatchTxStatusEntry_noResult ledger txs[i] m hm hno]

/-- Witness for C4: a lookup of `"DDD"` in the sample ledger responds with
absent metadata and is mapped to status `"unknown"`. -/
theorem getBatchTxStatus_missing_metadata_unknown_witness :
    (getBatchTxStatus sampleLedger [{ hash := "DDD", index := 4 }])[0]? =
      some { hash := "DDD", successful := false, status := "unknown",
             index := 4 } :=
  getBatchTxStatus_missing_metadata_unknown sampleLedger
    [{ hash := "DDD", index := 4 }] 0 (by decide) TxMeta.absent (by decide)
    (fun _ hcode => TxMeta.noConfusion hcode)

/-- C6: `getBatchTxStatus` issues only read-only `'tx'` lookup requests, and
its output depends only on the ledger's responses at the queried hashes: two
runs against ledgers that agree there (in particular, two runs against one
unchanged ledger) yield identical output lists. -/
theorem getBatchTxStatus_read_only_idempotent (txs : List TxDescriptor) :
    (∀ r ∈ getBatchTxStatusRequests txs, r.command = "tx") ∧
    ∀ ledger1 ledger2 : Ledger,
      (∀ tx ∈ txs, ledger1 tx.hash = ledger2 tx.hash) →
      getBatchTxStatus ledger1 txs = getBatchTxStatus ledger2 txs := by
  constructor
  · intro r hr
    simp only [getBatchTxStatusRequests, List.mem_map] at hr
    obtain ⟨tx, _, rfl⟩ := hr
    rfl
  · intro ledger1 ledger2 hagree
    unfold getBatchTxStatus
    exact List.map_congr_left fun tx htx =>
      getBatchTxStatusEntry_congr ledger1 ledger2 tx (hagree tx htx)

/-- Witness for C6: the two sample ledgers agree on every hash of the sample
input, so the two runs return identical lists. -/
theorem getBatchTxStatus_read_only_idempotent_witness :
    getBatchTxStatus sampleLedger sampleTxs =
      getBatchTxStatus sampleLedgerTwo sampleTxs :=
  (getBatchTxStatus_read_only_idempotent sampleTxs).2 sampleLedger
    sampleLedgerTwo (by decide)

/-- C7: `getBatchTxStatus` issues exactly one network request per input pair
— the `'tx'` lookup of that pair's hash — and no other request; each mapped
callback touches only its own pair. -/
theorem getBatchTxStatus_one_request_per_pair (txs : List TxDescriptor) :
    (getBatchTxStatusRequests txs).length = txs.length ∧
    ∀ i : Nat, (getBatchTxStatusRequests txs)[i]? =
      (txs[i]?).map (fun tx => { command := "tx", transaction := tx.hash }) := by
  refine ⟨by simp [getBatchTxStatusRequests], fun i => ?_⟩
  simp [getBatchTxStatusRequests, List.getElem?_map]

/-- C10: on the empty input list `getBatchTxStatus` returns the empty list
and issues no network request at all. -/
theorem getBatchTxStatus_empty_input (ledger : Ledger) :
    getBatchTxStatus ledger [] = [] ∧ getBatchTxStatusRequests [] = [] :=
  ⟨rfl, rfl⟩

/-! `validateTransactionResult`. -/

theorem validateTransactionResult_eval (result : TxResponse) :
    validateTransactionResult result =
      match result.meta with
      | TxMeta.obj (some code) =>
        if code = "tesSUCCESS" then Except.ok ()
        else Except.error ("Transaction failed: " ++ code)
      | _ => Except.error "Transaction failed: unknown" := by
  unfold validateTransactionResult
  cases result.meta with
  | absent => rfl
  | binary s => rfl
  | obj o =>
    cases o with
    | none => rfl
    | some code =>
      by_cases hc : code = "tesSUCCESS"
      · simp [hc]
      · simp [hc]

/-- C9: `validateTransactionResult` throws iff the response's metadata is
not an object containing a `TransactionResult` field equal to
`'tesSUCCESS'`: a present non-success code throws with that code in the
message, a missing or malformed field is treated as the code `'unknown'`
and throws, and on `'tesSUCCESS'` the function returns normally.  The
embedding is a pure function on the response, which is therefore left
unmodified. -/
theorem validateTransactionResult_throws_iff_not_success (result : TxResponse) :
    (validateTransactionResult result = Except.ok () ↔
      result.meta = TxMeta.obj (some "tesSUCCESS")) ∧
    (∀ code : String, result.meta = TxMeta.obj (some code) →
      code ≠ "tesSUCCESS" →
      validateTransactionResult result =
        Except.error ("Transaction failed: " ++ code)) ∧
    ((∀ code : String, result.meta ≠ TxMeta.obj (some code)) →
      validateTransactionResult result =
        Except.error "Transaction failed: unknown") := by
  rw [validateTransactionResult_eval]
  cases hm : result.meta with
  | absent => simp
  | binary s => simp
  | obj o =>
    cases o with
    | none => simp
    | some code =>
      by_cases hc : code = "tesSUCCESS"
      · subst hc
        refine ⟨by simp, fun code2 heq hne => ?_, fun hno => ?_⟩
        · cases heq
          exact absurd rfl hne
        · exact absurd rfl (hno "tesSUCCESS")
      · refine ⟨by simp [hc], fun code2 heq hne => ?_, fun hno => ?_⟩
        · cases heq
          simp [hc]
        · exact absurd rfl (hno code)

/-- Witness for C9: a response with absent metadata makes
`validateTransactionResult` throw `'Transaction failed: unknown'`. -/
theorem validateTransactionResult_throws_iff_not_success_witness :
    validateTransactionResult { meta := TxMeta.absent, hash := "BATCH" } =
      Except.error "Transaction failed: unknown" :=
  (validateTransactionResult_throws_iff_not_success
    { meta := TxMeta.absent, hash := "BATCH" }).2.2
    (fun _ hcode => TxMeta.noConfusion hcode)

/-! The hash-collection loop and the `batchAllOrNothing` control flow. -/

theorem mem_collectInnerTxHashesFrom {Tx : Type} (hashSignedTx : Tx → Option String)
    (raws : List (RawTxEntry Tx)) (n : Nat) (d : TxDescriptor)
    (hd : d ∈ collectInnerTxHashesFrom hashSignedTx n raws) :
    ∃ i : Nat, ∃ hi : i < raws.length, ∃ innerTx : Tx,
      (raws[i]).rawTransaction = some innerTx ∧
      hashSignedTx innerTx = some d.hash ∧
      d.index = (n : Int) + i + 1 := by
  induction raws generalizing n with
  | nil => cases hd
  | cons entry rest ih =>
    rw [collectInnerTxHashesFrom] at hd
    split at hd
    next hraw =>
      obtain ⟨i, hi, innerTx, h1, h2, h3⟩ := ih (n + 1) hd
      refine ⟨i + 1, by simpa using hi, innerTx, by simpa using h1, h2, ?_⟩
      push_cast at h3 ⊢
      omega
    next innerTx0 hraw =>
      split at hd
      next hh =>
        obtain ⟨i, hi, innerTx, h1, h2, h3⟩ := ih (n + 1) hd
        refine ⟨i + 1, by simpa using hi, innerTx, by simpa using h1, h2, ?_⟩
        push_cast at h3 ⊢
        omega
      next txHash hh =>
        rcases List.mem_cons.mp hd with heq | hd2
        · subst heq
          exact ⟨0, by simp, innerTx0, by simpa using hraw, by simpa using hh,
            by simp⟩
        · obtain ⟨i, hi, innerTx, h1, h2, h3⟩ := ih (n + 1) hd2
          refine ⟨i + 1, by simpa using hi, innerTx, by simpa using h1, h2, ?_⟩
          push_cast at h3 ⊢
          omega

theorem mem_collectInnerTxHashes {Tx : Type} (hashSignedTx : Tx → Option String)
    (raws : List (RawTxEntry Tx)) (d : TxDescriptor)
    (hd : d ∈ collectInnerTxHashes hashSignedTx raws) :
    ∃ i : Nat, ∃ hi : i < raws.length, ∃ innerTx : Tx,
      (raws[i]).rawTransaction = some innerTx ∧
      hashSignedTx innerTx = some d.hash ∧
      d.index = (i : Int) + 1 := by
  obtain ⟨i, hi, innerTx, h1, h2, h3⟩ :=
    mem_collectInnerTxHashesFrom hashSignedTx raws 0 d hd
  exact ⟨i, hi, innerTx, h1, h2, by push_cast at h3 ⊢; omega⟩

theorem batchAllOrNothingTry_statusLookup {Tx : Type} (env : BatchRunEnv Tx)
    (txs : List TxDescriptor)
    (h : ClientEvent.statusLookup txs ∈ (batchAllOrNothingTry env).1) :
    ∃ raws : List (RawTxEntry Tx),
      env.batchTxLookup = Except.ok (some raws) ∧
      txs = collectInnerTxHashes env.hashSignedTx raws := by
  unfold batchAllOrNothingTry at h
  repeat' split at h
  all_goals simp at h
  split at h
  · simp at h
  · simp at h
    exact ⟨_, by assumption, h⟩

theorem batchAllOrNothingTry_events {Tx : Type} (env : BatchRunEnv Tx) :
    (batchAllOrNothingTry env).1 = [] ∨
    (batchAllOrNothingTry env).1 = [ClientEvent.connect] ∨
    ∃ txs : List TxDescriptor,
      (batchAllOrNothingTry env).1 =
        [ClientEvent.connect, ClientEvent.statusLookup txs] := by
  unfold batchAllOrNothingTry
  repeat' split
  all_goals try simp
  split <;> simp

theorem batchAllOrNothingTry_connect_mem {Tx : Type} (env : BatchRunEnv Tx)
    (u1 u2 : Unit) (h1 : env.walletFromSeedIssuer = Except.ok u1)
    (h2 : env.walletFromSeedUser = Except.ok u2) :
    ClientEvent.connect ∈ (batchAllOrNothingTry env).1 := by
  simp only [batchAllOrNothingTry, h1, h2]
  repeat' split
  all_goals simp

/-- C8: a `batchAllOrNothing` run constructs exactly one client, issues the
`connect` call at most once — and exactly once on every run that gets past
wallet construction, the first statements of the `try` block — and its event
trace always ends with the `disconnect` call of the `finally` block: on the
`true` path, the `false` path and the caught-error path alike, the function
cannot terminate without `disconnect` having been issued (and the `catch`
clause means it always terminates by returning a boolean, never by
throwing). -/
theorem batchAllOrNothing_connect_disconnect_discipline {Tx : Type}
    (env : BatchRunEnv Tx) :
    ((batchAllOrNothing env).1.count ClientEvent.newClient = 1) ∧
    ((batchAllOrNothing env).1.count ClientEvent.connect ≤ 1) ∧
    (∀ u1 u2 : Unit, env.walletFromSeedIssuer = Except.ok u1 →
      env.walletFromSeedUser = Except.ok u2 →
      (batchAllOrNothing env).1.count ClientEvent.connect = 1) ∧
    ((batchAllOrNothing env).1.getLast? = some ClientEvent.disconnect) := by
  have hbase : ((batchAllOrNothing env).1.count ClientEvent.newClient = 1) ∧
      ((batchAllOrNothing env).1.count ClientEvent.connect ≤ 1) ∧
      ((batchAllOrNothing env).1.getLast? = some ClientEvent.disconnect) := by
    rcases batchAllOrNothingTry_events env with h | h | ⟨txs, h⟩ <;>
      · simp only [batchAllOrNothing]
        rw [h]
        refine ⟨?_, ?_, by rw [List.getLast?_concat]⟩ <;>
          simp [List.count_cons, List.count_append]
  refine ⟨hbase.1, hbase.2.1, ?_, hbase.2.2⟩
  intro u1 u2 h1 h2
  have hmem : ClientEvent.connect ∈ (batchAllOrNothing env).1 := by
    simp only [batchAllOrNothing]
    simp only [List.mem_append, List.mem_cons]
    exact Or.inl (Or.inr (batchAllOrNothingTry_connect_mem env u1 u2 h1 h2))
  have hpos := List.count_pos_iff.mpr hmem
  have hle := hbase.2.1
  omega

/-- Witness for C8: the sample run gets past wallet construction, so its
trace contains exactly one `connect` call. -/
theorem batchAllOrNothing_connect_disconnect_discipline_witness :
    (batchAllOrNothing sampleBatchEnv).1.count ClientEvent.connect = 1 :=
  (batchAllOrNothing_connect_disconnect_discipline sampleBatchEnv).2.2.1 () ()
    rfl rfl

/-- C5: whenever a `batchAllOrNothing` run reaches its `getBatchTxStatus`
call, the argument list was built by the hash-collection loop from the
`RawTransactions` recorded on the ledger for the validated batch
transaction (the fetched `batchTxLookup` data — the pre-submission
`innerTransactions` objects do not enter the computation), every hash in it
is `hashes.hashSignedTx` applied to a present `RawTransaction` entry, and
the entry at 0-based position i of the ledger-recorded list is paired with
index i + 1. -/
theorem batchAllOrNothing_hashes_from_ledger_raw {Tx : Type}
    (env : BatchRunEnv Tx) (txs : List TxDescriptor)
    (hcall : ClientEvent.statusLookup txs ∈ (batchAllOrNothing env).1) :
    ∃ raws : List (RawTxEntry Tx),
      env.batchTxLookup = Except.ok (some raws) ∧
      txs = collectInnerTxHashes env.hashSignedTx raws ∧
      ∀ d ∈ txs, ∃ i : Nat, ∃ hi : i < raws.length, ∃ innerTx : Tx,
        (raws[i]).rawTransaction = some innerTx ∧
        env.hashSignedTx innerTx = some d.hash ∧
        d.index = (i : Int) + 1 := by
  have h2 : ClientEvent.statusLookup txs ∈ (batchAllOrNothingTry env).1 := by
    unfold batchAllOrNothing at hcall
    simp only [List.mem_append, List.mem_cons, List.mem_singleton] at hcall
    rcases hcall with (hcall | hcall) | (hcall | hcall)
    · cases hcall
    · exact hcall
    · cases hcall
    · cases hcall
  obtain ⟨raws, hb, htxs⟩ := batchAllOrNothingTry_statusLookup env txs h2
  refine ⟨raws, hb, htxs, fun d hd => ?_⟩
  exact mem_collectInnerTxHashes env.hashSignedTx raws d (htxs ▸ hd)

/-- Witness for C5: the sample run reaches the `getBatchTxStatus` call with
the single pair `{hash: "AAA", index: 1}`, the hash of the one
ledger-recorded raw transaction. -/
theorem batchAllOrNothing_hashes_from_ledger_raw_witness :
    ∃ raws : List (RawTxEntry Unit),
      sampleBatchEnv.batchTxLookup = Except.ok (some raws) ∧
      [({ hash := "AAA", index := 1 } : TxDescriptor)] =
        collectInnerTxHashes sampleBatchEnv.hashSignedTx raws ∧
      ∀ d ∈ [({ hash := "AAA", index := 1 } : TxDescriptor)],
        ∃ i : Nat, ∃ hi : i < raws.length, ∃ innerTx : Unit,
          (raws[i]).rawTransaction = some innerTx ∧
          sampleBatchEnv.hashSignedTx innerTx = some d.hash ∧
          d.index = (i : Int) + 1 :=
  batchAllOrNothing_hashes_from_ledger_raw sampleBatchEnv
    [{ hash := "AAA", index := 1 }] (by decide)
